import Mathlib

/-!
Shallow embedding of `easyesn/SpatioTemporalESN.py` (SpatioTemporalESN class,
its array iterators, worker processes and result reducers), together with
theorems settling the spec claims about it.

Numeric values are modelled over `ℚ`; persistent state arrays additionally
carry a `nan` constructor because numpy stores NaN when `None` is broadcast
into a float array (this happens when the fit reducer stores a failure
sentinel's state).
-/

set_option maxHeartbeats 1000000

/-- A cell of a numpy float array: either a rational value or NaN
(numpy stores NaN when the Python value `None` is assigned into a float
array, which the fit reducer does for failure sentinels). -/
inductive RVal where
  | num (q : ℚ)
  | nan
deriving DecidableEq

/-- A zero vector of length `n`, modelling `B.zeros((n, 1))`. -/
def zerosVec (n : ℕ) : List RVal := List.replicate n (RVal.num 0)

/-- List lookup after `List.set` at the written position. -/
theorem listGetElemSetSelf {α : Type} (l : List α) (i : ℕ) (a : α) (h : i < l.length) :
    (l.set i a)[i]? = some a := by
  induction l generalizing i with
  | nil => simp at h
  | cons b t ih =>
    cases i with
    | zero => simp
    | succ n => simpa using ih n (by simpa using h)

/-- List lookup after `List.set` at any other position. -/
theorem listGetElemSetNe {α : Type} (l : List α) (i j : ℕ) (a : α) (h : j ≠ i) :
    (l.set i a)[j]? = l[j]? := by
  induction l generalizing i j with
  | nil => rfl
  | cons b t ih =>
    cases i with
    | zero =>
      cases j with
      | zero => exact absurd rfl h
      | succ m => simp
    | succ n =>
      cases j with
      | zero => simp
      | succ m => simpa using ih n m (fun hc => h (by simp [hc]))

/-- An in-range index always has a `some` lookup. -/
theorem listGetElemIsSome {α : Type} (l : List α) (i : ℕ) (h : i < l.length) :
    l[i]?.isSome := by
  induction l generalizing i with
  | nil => simp at h
  | cons b t ih =>
    cases i with
    | zero => simp
    | succ n => simpa using ih n (by simpa using h)

/--
`SpatioTemporalESN._uniqueIDFromIndices` (SpatioTemporalESN.py lines 377-387):
starts from `indices[-1]` (raising on an empty list, modelled as `none`),
raises `ValueError` when the length of `indices` differs from the length of
`inputShape` (modelled as `none`), and otherwise adds
`inputShape[i+1] * indices[i]` for `i = 0 .. len-2`.
-/
def uniqueIDFromIndices (inputShape : List ℕ) (indices : List ℕ) : Option ℕ :=
  match indices.getLast? with
  | none => none
  | some lastIdx =>
    if indices.length = inputShape.length then
      some ((List.range (inputShape.length - 1)).foldl
        (fun acc i => acc + inputShape.getD (i + 1) 0 * indices.getD i 0) lastIdx)
    else none

/-- Closed form of the flat index for a two-dimensional grid. -/
theorem uniqueID_two (s0 s1 a b : ℕ) :
    uniqueIDFromIndices [s0, s1] [a, b] = some (b + s1 * a) := by
  rfl

/-- Closed form of the flat index for a one-dimensional grid. -/
theorem uniqueID_one (s a : ℕ) :
    uniqueIDFromIndices [s] [a] = some a := by
  rfl

/-- The two-dimensional flat index is within range. -/
theorem uniqueID_two_lt (s0 s1 a b : ℕ) (ha : a < s0) (hb : b < s1) :
    b + s1 * a < s0 * s1 := by
  calc b + s1 * a < s1 + s1 * a := by omega
    _ = s1 * (a + 1) := by ring
    _ ≤ s1 * s0 := Nat.mul_le_mul_left s1 (by omega)
    _ = s0 * s1 := Nat.mul_comm s1 s0

/--
Claim C3 (counterexample): `_uniqueIDFromIndices` is not injective on
three-dimensional grids.  For the grid shape `[2, 2, 2]` the two distinct
Locations `[1, 0, 0]` and `[0, 1, 0]` both receive the flat index `2`,
so the flat-index function is not a bijection for every valid grid shape.
-/
theorem uniqueID_collision_dim3_C3 :
    uniqueIDFromIndices [2, 2, 2] [1, 0, 0] = some 2 ∧
    uniqueIDFromIndices [2, 2, 2] [0, 1, 0] = some 2 ∧
    ([1, 0, 0] : List ℕ) ≠ [0, 1, 0] := by
  refine ⟨rfl, rfl, by decide⟩

/--
Claim C3 (amended): the flat-index function of `_uniqueIDFromIndices` is a
bijection from the Locations of the grid onto `{0, …, prod(shape)-1}` for
grids of one or two spatial dimensions (the only dimensionalities whose jobs
the iterators can process); for three or more dimensions the formula is not
row-major and collides.  For a 2-D shape `[s0, s1]` the index of `[a, b]`
is `b + s1 * a`, it is injective on in-range coordinates, every index below
`s0 * s1` is attained, and for a 1-D shape the map is the identity.
-/
theorem uniqueID_bijection_dim12_C3 (s0 s1 : ℕ) (hs1 : 0 < s1) :
    (∀ a b : ℕ, a < s0 → b < s1 →
        uniqueIDFromIndices [s0, s1] [a, b] = some (b + s1 * a) ∧ b + s1 * a < s0 * s1)
    ∧ (∀ a b c d : ℕ, a < s0 → b < s1 → c < s0 → d < s1 →
        uniqueIDFromIndices [s0, s1] [a, b] = uniqueIDFromIndices [s0, s1] [c, d] →
        a = c ∧ b = d)
    ∧ (∀ n : ℕ, n < s0 * s1 →
        n / s1 < s0 ∧ n % s1 < s1 ∧
        uniqueIDFromIndices [s0, s1] [n / s1, n % s1] = some n)
    ∧ (∀ a : ℕ, a < s0 → uniqueIDFromIndices [s0] [a] = some a) := by
  refine ⟨?_, ?_, ?_, ?_⟩
  · intro a b ha hb
    exact ⟨uniqueID_two s0 s1 a b, uniqueID_two_lt s0 s1 a b ha hb⟩
  · intro a b c d ha hb hc hd heq
    rw [uniqueID_two, uniqueID_two] at heq
    have h2 : b + s1 * a = d + s1 * c := by
      exact Option.some.inj heq
    have hdiv : (b + s1 * a) / s1 = (d + s1 * c) / s1 := by rw [h2]
    rw [Nat.add_mul_div_left b a hs1, Nat.add_mul_div_left d c hs1,
      Nat.div_eq_of_lt hb, Nat.div_eq_of_lt hd] at hdiv
    have hac : a = c := by omega
    refine ⟨hac, ?_⟩
    subst hac
    omega
  · intro n hn
    have hdiv : n / s1 < s0 := by
      rw [Nat.div_lt_iff_lt_mul hs1]
      omega
    refine ⟨hdiv, Nat.mod_lt n hs1, ?_⟩
    rw [uniqueID_two]
    congr 1
    exact Nat.mod_add_div n s1
  · intro a _
    exact uniqueID_one s0 a

/--
Claim C3 (witness): the amended bijection theorem instantiated on the
concrete 2×3 grid. -/
theorem uniqueID_bijection_dim12_C3_witness :
    uniqueIDFromIndices [2, 3] [1, 2] = some 5 ∧ 5 < 2 * 3 := by
  have h := (uniqueID_bijection_dim12_C3 2 3 (by decide)).1 1 2 (by decide) (by decide)
  simpa using h

/--
The mutable state-array part of a `SpatioTemporalESN` instance:
`x` models `self._x`, the per-worker scratch state of shape
`(nWorkers, n_reservoir, 1)`, and `xs` models `self._xs`, the persistent
per-Location state array of shape `(prod(inputShape), n_reservoir, 1)`
(allocated with `B.empty`, i.e. with arbitrary contents, at construction,
SpatioTemporalESN.py line 152).
-/
structure STEState where
  x : List (List RVal)
  xs : List (List RVal)
deriving DecidableEq

/--
`SpatioTemporalESN.resetState` (SpatioTemporalESN.py lines 193-197):
with no index it rebinds `self._x` to `B.zeros((nWorkers, n_reservoir, 1))`;
with an index it overwrites the single scratch slot `self._x[index]` with
`B.zeros((n_reservoir, 1))`.  The index is assumed in range (numpy raises
`IndexError` otherwise).  `self._xs` is not mentioned by the method.
-/
def resetState (nWorkers nReservoir : ℕ) (index : Option ℕ) (st : STEState) : STEState :=
  match index with
  | none => { st with x := List.replicate nWorkers (zerosVec nReservoir) }
  | some i => { st with x := st.x.set i (zerosVec nReservoir) }

/--
The state reset performed at the start of `fit`
(`self.resetState()`, SpatioTemporalESN.py line 260), before the worker pool
is started.
-/
def fitCallReset (nWorkers nReservoir : ℕ) (st : STEState) : STEState :=
  resetState nWorkers nReservoir none st

/--
The state reset performed at the start of `predict`
(`self.resetState()`, SpatioTemporalESN.py line 338), before the worker pool
is started.
-/
def predictCallReset (nWorkers nReservoir : ℕ) (st : STEState) : STEState :=
  resetState nWorkers nReservoir none st

/--
Claim C4 (counterexample): the persistent per-Location state array is not
zero-initialized at the start of a `fit` or `predict` call.  On an instance
with one worker, a one-cell grid and `n_reservoir = 1` whose persistent
array currently holds the value 5, the reset performed at the start of the
call leaves the persistent array at 5 rather than zeroing it.
-/
theorem persistentStateNotZeroed_C4 :
    (fitCallReset 1 1 ⟨[[RVal.num 1]], [[RVal.num 5]]⟩).xs = [[RVal.num 5]] ∧
    (predictCallReset 1 1 ⟨[[RVal.num 1]], [[RVal.num 5]]⟩).xs = [[RVal.num 5]] ∧
    ([[RVal.num 5]] : List (List RVal)) ≠ [List.replicate 1 (RVal.num 0)] := by
  exact ⟨rfl, rfl, by decide⟩

/--
Claim C4 (amended): at the start of every `fit` call and every `predict`
call, before any job runs, the per-worker scratch state array (one entry of
size `n_reservoir` per worker, `nWorkers` entries in total) is
zero-initialized; the persistent per-Location state array is left completely
unchanged by this reset — it is allocated uninitialized (`B.empty`) at
construction and is only ever written by the result reducers.
-/
theorem callStartReset_C4 (nWorkers nReservoir : ℕ) (st : STEState) :
    (fitCallReset nWorkers nReservoir st).x
        = List.replicate nWorkers (zerosVec nReservoir) ∧
    (fitCallReset nWorkers nReservoir st).xs = st.xs ∧
    (predictCallReset nWorkers nReservoir st).x
        = List.replicate nWorkers (zerosVec nReservoir) ∧
    (predictCallReset nWorkers nReservoir st).xs = st.xs := by
  exact ⟨rfl, rfl, rfl, rfl⟩

/--
Claim C8 (confirmed): `resetState` with no index zeroes every per-worker
scratch slot; `resetState index` zeroes exactly the slot `index`, leaving
every other scratch slot unchanged; in both cases every entry of the
persistent per-Location state array `_xs` is left unchanged.
-/
theorem resetState_frame_C8 (nWorkers nReservoir : ℕ) (st : STEState) (i : ℕ)
    (hi : i < st.x.length) :
    (resetState nWorkers nReservoir none st).x
        = List.replicate nWorkers (zerosVec nReservoir) ∧
    (resetState nWorkers nReservoir none st).xs = st.xs ∧
    (resetState nWorkers nReservoir (some i) st).x[i]? = some (zerosVec nReservoir) ∧
    (∀ j : ℕ, j ≠ i → (resetState nWorkers nReservoir (some i) st).x[j]? = st.x[j]?) ∧
    (resetState nWorkers nReservoir (some i) st).xs = st.xs := by
  refine ⟨rfl, rfl, ?_, ?_, rfl⟩
  · exact listGetElemSetSelf st.x i (zerosVec nReservoir) hi
  · intro j hj
    exact listGetElemSetNe st.x i j (zerosVec nReservoir) hj

/--
Claim C8 (witness): the frame theorem instantiated on a concrete instance
with two workers, zeroing slot 0 and leaving slot 1 and the persistent array
untouched.
-/
theorem resetState_frame_C8_witness :
    (resetState 2 1 (some 0)
        ⟨[[RVal.num 3], [RVal.num 4]], [[RVal.num 7]]⟩).x[0]? = some (zerosVec 1) ∧
    (resetState 2 1 (some 0)
        ⟨[[RVal.num 3], [RVal.num 4]], [[RVal.num 7]]⟩).xs = [[RVal.num 7]] := by
  have h := resetState_frame_C8 2 1 ⟨[[RVal.num 3], [RVal.num 4]], [[RVal.num 7]]⟩ 0
    (by decide)
  exact ⟨h.2.2.1, h.2.2.2.2⟩

/--
The configuration validation performed by `SpatioTemporalESN.__init__`
(SpatioTemporalESN.py lines 120-136), in source order: `averageOutputWeights`
with a solver other than `lsqr` raises, a `borderMode` outside
`mirror/padding/edge/wrap` raises, and an even `filterSize` raises.
`Except.error` models the raised `ValueError`.
-/
def initValidate (averageOutputWeights : Bool) (solver borderMode : String)
    (filterSize : ℕ) : Except String Unit :=
  if averageOutputWeights = true ∧ solver ≠ "lsqr" then
    Except.error "averageOutputWeights can only be True when solver is lsqr"
  else if borderMode ∉ ["mirror", "padding", "edge", "wrap"] then
    Except.error "borderMode must be mirror, padding, edge or wrap"
  else if filterSize % 2 = 0 then
    Except.error "filterSize has to be an odd number"
  else Except.ok ()

/--
The rank validation at the top of `SpatioTemporalESN.fit`
(SpatioTemporalESN.py lines 224-230): with `rank = ndim - 1` computed over
the integers, `fit` raises unless `rank` is `n_inputDimensions` or
`n_inputDimensions + 1` (optional leading series-batch axis).
-/
def fitValidateRank (nInputDimensions ndim : ℕ) : Except String Unit :=
  if (ndim : ℤ) - 1 ≠ (nInputDimensions : ℤ) ∧
      (ndim : ℤ) - 1 ≠ (nInputDimensions : ℤ) + 1 then
    Except.error "The inputData does not have a suitable shape."
  else Except.ok ()

/--
The job list built by `fit`/`predict` (SpatioTemporalESN.py lines 255-256 and
334-335): one Location per point of the spatial grid, each coordinate offset
by `filterWidth` into padded coordinates.  `np.meshgrid` enumerates these in
a different order (its first two axes are swapped), but produces exactly the
same Locations, each exactly once; the spec forbids relying on job order, so
the enumeration here is the plain nested product.
-/
def gridJobs (spatialShape : List ℕ) (filterWidth : ℕ) : List (List ℕ) :=
  spatialShape.foldr
    (fun s acc =>
      ((List.range s).map (fun c => c + filterWidth)).flatMap
        (fun c => acc.map (fun rest => c :: rest)))
    [[]]

/--
The prefix of `SpatioTemporalESN.fit` up to job creation
(SpatioTemporalESN.py lines 224-258): validate the rank of the input, and
only on success build the job list from the spatial axes of the data shape
(the spatial axes are all axes after the time axis, and after the leading
series axis when one is present).
-/
def fitCallJobs (nInputDimensions : ℕ) (dataShape : List ℕ) (filterWidth : ℕ) :
    Except String (List (List ℕ)) :=
  match fitValidateRank nInputDimensions dataShape.length with
  | Except.error e => Except.error e
  | Except.ok _ =>
    Except.ok (gridJobs
      (if dataShape.length = nInputDimensions + 1 then dataShape.drop 1
       else dataShape.drop 2) filterWidth)

/--
The prefix of `SpatioTemporalESN.predict` up to the allocation of the output
tensor (SpatioTemporalESN.py lines 312-332): with `rank = ndim - 1` computed
over the integers, `predict` raises unless `rank = n_inputDimensions`; on
success the returned output tensor is allocated as
`B.zeros(np.insert(self.inputShape, 0, inputData.shape[0] - transientTime))`,
i.e. with shape `(time - transientTime, *inputShape)`.  The returned value is
that tensor's shape.
-/
def predictCheckAndShape (nInputDimensions : ℕ) (inputShape dataShape : List ℕ)
    (transientTime : ℕ) : Except String (List ℕ) :=
  if (dataShape.length : ℤ) - 1 ≠ (nInputDimensions : ℤ) then
    Except.error "The inputData does not have a suitable shape."
  else
    Except.ok ((dataShape.headD 0 - transientTime) :: inputShape)

/--
Claim C6 (counterexample): the configuration-error characterization fails for
`fit`: with 2 configured spatial dimensions, an input of rank 3
(ndim 4: one series axis, one time axis, two spatial axes) has a rank that
does not match the configured number of spatial dimensions, yet `fit` does
not raise — the batch form is accepted, so "raise if and only if one of the
four conditions holds" is false as stated.
-/
theorem fitRankBatchAccepted_C6 :
    fitValidateRank 2 4 = Except.ok () ∧ ((4 : ℤ) - 1 ≠ (2 : ℤ)) := by
  exact ⟨rfl, by decide⟩

/--
Claim C6 (amended): each configuration error is raised synchronously, before
any job is scheduled, and the raising conditions are exactly:
for construction, an even `filterSize`, a `borderMode` outside
`{mirror, padding, edge, wrap}`, or `averageOutputWeights = True` with a
solver other than `lsqr`; for `fit`, an input rank that is neither
`n_inputDimensions` nor `n_inputDimensions + 1` (optional leading batch
axis); for `predict`, an input rank different from `n_inputDimensions`.
When `fit`'s validation raises, `fit` returns that error and no job list is
ever built.
-/
theorem configErrors_C6 (averageOutputWeights : Bool) (solver borderMode : String)
    (filterSize nInputDimensions ndim : ℕ) (inputShape dataShape : List ℕ)
    (transientTime filterWidth : ℕ) :
    ((∃ e, initValidate averageOutputWeights solver borderMode filterSize
          = Except.error e) ↔
        ((averageOutputWeights = true ∧ solver ≠ "lsqr")
          ∨ borderMode ∉ ["mirror", "padding", "edge", "wrap"]
          ∨ filterSize % 2 = 0))
    ∧ ((∃ e, fitValidateRank nInputDimensions ndim = Except.error e) ↔
        (ndim ≠ nInputDimensions + 1 ∧ ndim ≠ nInputDimensions + 2))
    ∧ ((∃ e, predictCheckAndShape nInputDimensions inputShape dataShape
          transientTime = Except.error e) ↔
        dataShape.length ≠ nInputDimensions + 1)
    ∧ (∀ e, fitValidateRank nInputDimensions dataShape.length = Except.error e →
        fitCallJobs nInputDimensions dataShape filterWidth = Except.error e) := by
  refine ⟨?_, ?_, ?_, ?_⟩
  · unfold initValidate
    by_cases h1 : averageOutputWeights = true ∧ solver ≠ "lsqr"
    · rw [if_pos h1]
      exact ⟨fun _ => Or.inl h1, fun _ => ⟨_, rfl⟩⟩
    · rw [if_neg h1]
      by_cases h2 : borderMode ∉ ["mirror", "padding", "edge", "wrap"]
      · rw [if_pos h2]
        exact ⟨fun _ => Or.inr (Or.inl h2), fun _ => ⟨_, rfl⟩⟩
      · rw [if_neg h2]
        by_cases h3 : filterSize % 2 = 0
        · rw [if_pos h3]
          exact ⟨fun _ => Or.inr (Or.inr h3), fun _ => ⟨_, rfl⟩⟩
        · rw [if_neg h3]
          constructor
          · rintro ⟨e, he⟩
            exact absurd he (by simp)
          · intro h
            rcases h with h | h | h
            · exact absurd h h1
            · exact absurd h h2
            · exact absurd h h3
  · unfold fitValidateRank
    by_cases h : (ndim : ℤ) - 1 ≠ (nInputDimensions : ℤ) ∧
        (ndim : ℤ) - 1 ≠ (nInputDimensions : ℤ) + 1
    · simp only [if_pos h]
      constructor
      · intro _
        omega
      · intro _
        exact ⟨_, rfl⟩
    · simp only [if_neg h]
      constructor
      · rintro ⟨e, he⟩
        exact absurd he (by simp)
      · intro hc
        exact absurd (by omega : ¬ ((ndim : ℤ) - 1 ≠ (nInputDimensions : ℤ) ∧
          (ndim : ℤ) - 1 ≠ (nInputDimensions : ℤ) + 1) → False) (by tauto)
  · unfold predictCheckAndShape
    by_cases h : (dataShape.length : ℤ) - 1 ≠ (nInputDimensions : ℤ)
    · simp only [if_pos h]
      constructor
      · intro _
        omega
      · intro _
        exact ⟨_, rfl⟩
    · simp only [if_neg h]
      constructor
      · rintro ⟨e, he⟩
        exact absurd he (by simp)
      · intro hc
        omega
  · intro e he
    unfold fitCallJobs
    rw [he]

/--
Claim C6 (witness): the amended characterization instantiated concretely: a
configuration with averaging and solver `pinv` raises at construction, a fit
input of ndim 1 against 2 spatial dimensions raises before any job is built.
-/
theorem configErrors_C6_witness :
    (∃ e, initValidate true "pinv" "mirror" 3 = Except.error e) ∧
    fitCallJobs 2 [10] 1 = Except.error "The inputData does not have a suitable shape." := by
  constructor
  · exact (configErrors_C6 true "pinv" "mirror" 3 2 1 [] [10] 0 1).1.mpr
      (Or.inl ⟨rfl, by decide⟩)
  · exact (configErrors_C6 true "pinv" "mirror" 3 2 1 [] [10] 0 1).2.2.2 _ rfl

/--
Claim C7 (confirmed): for every input tensor whose number of axes is exactly
`n_inputDimensions + 1` (the configured spatial dimensions plus one time
axis), `predict` passes its rank check and returns a tensor of shape
`(time - transientTime, *inputShape)`; for any other number of axes it
raises the configuration `ValueError` and returns nothing.
-/
theorem predictShape_C7 (nInputDimensions transientTime : ℕ)
    (inputShape dataShape : List ℕ) :
    (dataShape.length = nInputDimensions + 1 →
      predictCheckAndShape nInputDimensions inputShape dataShape transientTime
        = Except.ok ((dataShape.headD 0 - transientTime) :: inputShape)) ∧
    (dataShape.length ≠ nInputDimensions + 1 →
      ∃ e, predictCheckAndShape nInputDimensions inputShape dataShape transientTime
        = Except.error e) := by
  constructor
  · intro h
    unfold predictCheckAndShape
    rw [if_neg (by omega)]
  · intro h
    unfold predictCheckAndShape
    rw [if_pos (by omega)]
    exact ⟨_, rfl⟩

/--
Claim C7 (witness): a 3×3 grid, 20 time steps, transient time 5: predict
accepts the rank-3 tensor and returns shape `(15, 3, 3)`; a rank-2 tensor is
rejected.
-/
theorem predictShape_C7_witness :
    predictCheckAndShape 2 [3, 3] [20, 3, 3] 5 = Except.ok [15, 3, 3] ∧
    (∃ e, predictCheckAndShape 2 [3, 3] [20, 3] 5 = Except.error e) := by
  constructor
  · exact (predictShape_C7 2 5 [3, 3] [20, 3, 3]).1 (by decide)
  · exact (predictShape_C7 2 5 [3, 3] [20, 3]).2 (by decide)

/--
`B.inv` (numpy matrix inverse) as used by `_fitProcess`: raises
`LinAlgError` on a singular matrix (modelled as `none`), otherwise returns
the inverse, computed here as `det⁻¹ • adjugate`.
-/
def matInvQ {n : ℕ} (A : Matrix (Fin n) (Fin n) ℚ) : Option (Matrix (Fin n) (Fin n) ℚ) :=
  if A.det = 0 then none else some (A.det⁻¹ • A.adjugate)

/--
The `lsqr` (ridge regression) readout solve of `_fitProcess`
(SpatioTemporalESN.py lines 424-427):
`WOut = (Y · Xᵀ) · inv(X · Xᵀ + λ · I)` with `λ` the configured
regularization parameter (`self._regressionParameters[0]`) and `I` the
identity of size `1 + n_input + n_reservoir` (`m` here); `X` is the
propagated design matrix of shape `m × totalLength` and `Y` the target row.
A singular Gram matrix makes the solve fail (`none`), which the worker's
exception handler turns into a failure sentinel.
-/
def lsqrSolve {m T : ℕ} (lam : ℚ) (X : Matrix (Fin m) (Fin T) ℚ)
    (Y : Matrix (Fin 1) (Fin T) ℚ) : Option (Matrix (Fin 1) (Fin m) ℚ) :=
  (matInvQ (X * X.transpose + lam • (1 : Matrix (Fin m) (Fin m) ℚ))).map
    (fun G => Y * X.transpose * G)

/-- The 1×1 rational matrix with the given entry, for concrete instances. -/
def constMat (x : ℚ) : Matrix (Fin 1) (Fin 1) ℚ := Matrix.of (fun _ _ => x)

/-- The 1×1 Gram matrix of the ridge solve. -/
theorem gram_one (lam x : ℚ) :
    (constMat x * (constMat x).transpose + lam • (1 : Matrix (Fin 1) (Fin 1) ℚ))
      = constMat (x * x + lam) := by
  ext i j
  fin_cases i
  fin_cases j
  simp [constMat, Matrix.mul_apply, Matrix.one_apply, Fin.sum_univ_one,
    Matrix.transpose_apply]

/-- Closed form of the ridge solve on 1×1 data. -/
theorem lsqr_one (lam x y : ℚ) (h : x * x + lam ≠ 0) :
    lsqrSolve lam (constMat x) (constMat y)
      = some (constMat (y * x * (x * x + lam)⁻¹)) := by
  unfold lsqrSolve matInvQ
  rw [gram_one]
  rw [if_neg (by rw [Matrix.det_fin_one]; simpa [constMat] using h)]
  simp only [Option.map]
  congr 1
  ext i j
  fin_cases i
  fin_cases j
  rw [Matrix.det_fin_one]
  simp [constMat, Matrix.adjugate_fin_one, Matrix.mul_apply, Fin.sum_univ_one,
    Matrix.transpose_apply, Matrix.one_apply]

/-- Sum of 1×1 constant matrices. -/
theorem constMatAdd (a b : ℚ) : constMat a + constMat b = constMat (a + b) := by
  ext i j
  simp [constMat]

/-- Scalar multiple of a 1×1 constant matrix. -/
theorem constMatSmul (r a : ℚ) : r • constMat a = constMat (r * a) := by
  ext i j
  simp [constMat]

/-- Distinct entries give distinct 1×1 constant matrices. -/
theorem constMatNe (a b : ℚ) (h : a ≠ b) : constMat a ≠ constMat b := by
  intro hc
  exact h (congrFun (congrFun hc 0) 0)

/--
A message on the `fitQueue` (SpatioTemporalESN.py lines 433-434 and 443):
the unpadded Location indices, the final reservoir state (`None` in a
failure sentinel), and the solved readout row (`None` in a failure
sentinel).
-/
structure FitMsg (m : ℕ) where
  indices : List ℕ
  state : Option (List ℚ)
  wout : Option (Matrix (Fin 1) (Fin m) ℚ)

/--
The shared storage mutated by the fit reducer `_processPoolWorkerResults`
(SpatioTemporalESN.py lines 267-304): the single averaged readout matrix
`self._WOut`, the per-Location readout array `self._WOuts` (flattened rows;
`None` at construction in averaging mode, modelled as the unused `[]`), the
persistent per-Location state array `self._xs`, and the warning diagnostics
emitted for failure sentinels (line 283).
-/
structure FitShared (m : ℕ) where
  WOut : Matrix (Fin 1) (Fin m) ℚ
  WOuts : List (List RVal)
  xs : List (List RVal)
  warnings : List (List ℕ)

/--
Broadcast-assignment of an optional state vector into a row of a numpy
float array: a real vector is stored as its values, while Python `None`
(a failure sentinel's state) is stored as NaN in every cell.
-/
def encodeVec (n : ℕ) : Option (List ℚ) → List RVal
  | some v => v.map RVal.num
  | none => List.replicate n RVal.nan

/--
Broadcast-assignment of an optional readout row into a row of the
per-Location readout array, with `None` stored as NaN (numpy semantics of
`self._WOuts[id] = None`).
-/
def encodeRow {m : ℕ} : Option (Matrix (Fin 1) (Fin m) ℚ) → List RVal
  | some W => List.ofFn (fun j : Fin m => RVal.num (W 0 j))
  | none => List.replicate m RVal.nan

/--
One iteration of the fit reducer loop (SpatioTemporalESN.py lines 274-295):
compute the flat index with `_uniqueIDFromIndices` (whose `ValueError`
aborts the reducer, modelled as `none`), print a warning when `WOut` is the
failure sentinel, then either accumulate `WOut / prod(inputShape)` into the
shared matrix (skipping sentinels) when averaging, or store `WOut` at the
Location's slot otherwise, and finally, unconditionally, store the reported
state at the Location's slot of the persistent state array.
-/
def fitReduceStepVal (averageOutputWeights : Bool) (inputShape : List ℕ)
    (nReservoir : ℕ) {m : ℕ} (sh : FitShared m) (msg : FitMsg m) (id : ℕ) :
    FitShared m :=
  let shw := if msg.wout.isNone then
      { sh with warnings := sh.warnings ++ [msg.indices] }
    else sh
  let shs := if averageOutputWeights then
      match msg.wout with
      | some W => { shw with WOut := shw.WOut + ((inputShape.prod : ℚ))⁻¹ • W }
      | none => shw
    else { shw with WOuts := shw.WOuts.set id (encodeRow msg.wout) }
  { shs with xs := shs.xs.set id (encodeVec nReservoir msg.state) }

/--
One iteration of the fit reducer loop, with the flat-index computation
(`_uniqueIDFromIndices`, whose `ValueError` aborts the reducer, modelled as
`none`) in front of the updates of `fitReduceStepVal`.
-/
def fitReduceStep (averageOutputWeights : Bool) (inputShape : List ℕ)
    (nReservoir : ℕ) {m : ℕ} (sh : FitShared m) (msg : FitMsg m) :
    Option (FitShared m) :=
  (uniqueIDFromIndices inputShape msg.indices).map
    (fitReduceStepVal averageOutputWeights inputShape nReservoir sh msg)

/--
The fit reducer loop: drain the queue, reducing each message in arrival
order; a raised `ValueError` from the indexer aborts the whole loop
(`none`).
-/
def fitReduceAll (averageOutputWeights : Bool) (inputShape : List ℕ)
    (nReservoir : ℕ) {m : ℕ} (sh0 : FitShared m) (msgs : List (FitMsg m)) :
    Option (FitShared m) :=
  msgs.foldl
    (fun acc msg => acc.bind
      (fun sh => fitReduceStep averageOutputWeights inputShape nReservoir sh msg))
    (some sh0)

/--
The shared storage as `__init__` leaves it in averaging mode
(SpatioTemporalESN.py lines 146-152): `self._WOut = B.zeros(...)` — zeroed
exactly once, at construction; `self._WOuts = None` (modelled as the unused
`[]`); `self._xs = B.empty(...)` — allocated with arbitrary, uninitialized
contents, passed here as `xsJunk`; no warnings yet.
-/
def initialFitSharedAvg (m : ℕ) (xsJunk : List (List RVal)) : FitShared m :=
  { WOut := 0, WOuts := [], xs := xsJunk, warnings := [] }

/--
The data one fit job works on: the padded Location indices delivered by the
iterator, the propagated design matrix `X` (the output of the external
collaborator `propagate`, stacked over all time series), the target row
`Y_target`, and the worker's final scratch state `self._x[workerID]`.
-/
structure FitJobData (m T : ℕ) where
  indices : List ℕ
  X : Matrix (Fin m) (Fin T) ℚ
  Y : Matrix (Fin 1) (Fin T) ℚ
  finalState : List ℚ

/--
Where, if anywhere, a fit job body raises (SpatioTemporalESN.py
lines 394-445): `ok` — no external failure (the ridge solve itself may still
fail on a singular matrix); `atUnpack` — line 396 fails before `indices` or
`workerID` is bound (the iterator delivered its error value `0`);
`atSharedRead` — lines 397-401 fail after `indices` is bound but before the
worker slot is acquired; `atBody` — lines 404-436 fail after the slot is
acquired.
-/
inductive FitFailPoint where
  | ok
  | atUnpack
  | atSharedRead
  | atBody
deriving DecidableEq

/--
What one worker-side job execution did: the messages it put on the result
queue, how many worker-slot acquisitions (`parallelWorkerIDs.get`) and
releases (`parallelWorkerIDs.put`) it performed, and whether an exception
escaped the job function into the pool machinery (which silently swallows
it, because the `map_async` result object is never read).
-/
structure WorkerTrace (μ : Type) where
  msgs : List μ
  acquires : ℕ
  releases : ℕ
  uncaught : Bool
deriving DecidableEq

/-- The failure sentinel put by `_fitProcess`'s handler (line 443). -/
def fitSentinel (filterWidth : ℕ) {m : ℕ} (indices : List ℕ) : FitMsg m :=
  ⟨indices.map (fun c => c - filterWidth), none, none⟩

/--
The single message a fit job without external failure puts (lines 420-434):
on a successful ridge solve, the unpadded indices with the final state and
the solved `WOut`; when the solve raises (singular matrix, `WOut.copy()` on
`None`), the handler's sentinel.
-/
def fitMsgOk (filterWidth : ℕ) (lam : ℚ) {m T : ℕ} (j : FitJobData m T) : FitMsg m :=
  match lsqrSolve lam j.X j.Y with
  | some W => ⟨j.indices.map (fun c => c - filterWidth), some j.finalState, some W⟩
  | none => fitSentinel filterWidth j.indices

/--
`SpatioTemporalESN._fitProcess` (SpatioTemporalESN.py lines 394-445) as a
trace of its queue and slot effects, for each failure point.  The `except`
handler (lines 438-445) prints the exception, puts the sentinel
`(indices, None, None)` and releases the slot — but it references the local
variables `indices` and `workerID`: when the body failed before those were
bound, the handler itself raises `NameError` at the corresponding line, so a
failure at `atUnpack` reports nothing at all, and a failure at
`atSharedRead` reports the sentinel but never releases a slot (it never
acquired one), the handler's own error escaping into the pool in both
cases.
-/
def fitProcessRun (filterWidth : ℕ) (lam : ℚ) {m T : ℕ} (p : FitFailPoint)
    (j : FitJobData m T) : WorkerTrace (FitMsg m) :=
  match p with
  | FitFailPoint.ok => ⟨[fitMsgOk filterWidth lam j], 1, 1, false⟩
  | FitFailPoint.atUnpack => ⟨[], 0, 0, true⟩
  | FitFailPoint.atSharedRead => ⟨[fitSentinel filterWidth j.indices], 0, 0, true⟩
  | FitFailPoint.atBody => ⟨[fitSentinel filterWidth j.indices], 1, 1, false⟩

/--
A message on the `predictQueue` (SpatioTemporalESN.py line 476): the
unpadded Location indices, the predicted output sequence and the reservoir
state.
-/
structure PredMsg where
  indices : List ℕ
  prediction : List ℚ
  state : List ℚ
deriving DecidableEq

/--
The data one predict job works on: padded indices, the prediction computed
from the stored readout, and the propagated state.
-/
structure PredJobData where
  indices : List ℕ
  prediction : List ℚ
  state : List ℚ
deriving DecidableEq

/--
Where, if anywhere, a predict job body raises (SpatioTemporalESN.py
lines 452-482): `ok` — no failure; `atUnpack` — lines 454-455 fail before
the slot is acquired; `atBody` — lines 458-478 fail after the slot is
acquired.
-/
inductive PredFailPoint where
  | ok
  | atUnpack
  | atBody
deriving DecidableEq

/--
`SpatioTemporalESN._predictProcess` (SpatioTemporalESN.py lines 452-482) as
a trace of its queue and slot effects.  Its `except` handler
(lines 479-482) only prints the exception: unlike the fit handler it puts
no sentinel on the queue and never releases the acquired worker slot, so a
failed predict job reports nothing and leaks its slot (though nothing
raises across the worker boundary).
-/
def predictProcessRun (filterWidth : ℕ) (p : PredFailPoint) (j : PredJobData) :
    WorkerTrace PredMsg :=
  match p with
  | PredFailPoint.ok =>
    ⟨[⟨j.indices.map (fun c => c - filterWidth), j.prediction, j.state⟩], 1, 1, false⟩
  | PredFailPoint.atUnpack => ⟨[], 0, 0, false⟩
  | PredFailPoint.atBody => ⟨[], 1, 0, false⟩

/--
Completion of the reducer loop `_processPoolWorkerResults` (fit lines
274-299, predict lines 353-366): the loop blocks on the queue until it has
received as many results as there are jobs, so the call completes exactly
when the workers' traces put at least `nJobs` messages; with fewer, the
loop blocks forever and the `fit`/`predict` call stalls.
-/
abbrev callCompletes {μ : Type} (nJobs : ℕ) (traces : List (WorkerTrace μ)) : Prop :=
  nJobs ≤ (traces.map (fun t => t.msgs.length)).sum

/-- Every fit job trace holds one message unless the job failed at unpack. -/
theorem fitTraceMsgCount (filterWidth : ℕ) (lam : ℚ) {m T : ℕ}
    (p : FitFailPoint) (j : FitJobData m T) :
    (fitProcessRun filterWidth lam p j).msgs.length
      = if p = FitFailPoint.atUnpack then 0 else 1 := by
  cases p <;> simp [fitProcessRun]

/-- A predict job trace holds one message exactly when the job did not fail. -/
theorem predTraceMsgCount (filterWidth : ℕ) (p : PredFailPoint) (j : PredJobData) :
    (predictProcessRun filterWidth p j).msgs.length
      = if p = PredFailPoint.ok then 1 else 0 := by
  cases p <;> simp [predictProcessRun]

/--
Chunked execution of `Pool.map_async` (SpatioTemporalESN.py line 265,
`chunksize=16`, for fit; line 344, `chunksize=200`, for predict): the job
iterator is partitioned into chunks and a worker executes each chunk as one
mapping over its jobs in order.  The pool wraps the whole chunk call in its
own try/except, so an exception escaping the job function (recorded as
`WorkerTrace.uncaught`) aborts the rest of its chunk — the remaining jobs
of that chunk never run and never report — and the captured error is then
swallowed, because the `map_async` result object is never read.
-/
def runChunk {π κ μ : Type} (f : π → κ → WorkerTrace μ) :
    List (π × κ) → List (WorkerTrace μ)
  | [] => []
  | pj :: rest =>
    if (f pj.1 pj.2).uncaught = true then [f pj.1 pj.2]
    else f pj.1 pj.2 :: runChunk f rest

/-- All traces of one chunked `map_async` call over the chunksize-partition
of the job list. -/
def runChunks {π κ μ : Type} (f : π → κ → WorkerTrace μ)
    (chunks : List (List (π × κ))) : List (WorkerTrace μ) :=
  (chunks.map (runChunk f)).flatten

/-- The total number of jobs of a chunked call (`nJobs` in the reducers). -/
def chunksJobCount {π κ : Type} (chunks : List (List (π × κ))) : ℕ :=
  (chunks.map List.length).sum

/-- The number of messages a list of traces puts on the result queue. -/
def traceMsgSum {μ : Type} (ts : List (WorkerTrace μ)) : ℕ :=
  (ts.map (fun t => t.msgs.length)).sum

/-- Message count of an empty trace list. -/
theorem traceMsgSum_nil {μ : Type} : traceMsgSum ([] : List (WorkerTrace μ)) = 0 :=
  rfl

/-- Message count of a trace cons. -/
theorem traceMsgSum_cons {μ : Type} (t : WorkerTrace μ) (ts : List (WorkerTrace μ)) :
    traceMsgSum (t :: ts) = t.msgs.length + traceMsgSum ts := by
  simp [traceMsgSum]

/-- A chunked run's messages are the sum of its chunks' messages. -/
theorem traceMsgSum_runChunks {π κ μ : Type} (f : π → κ → WorkerTrace μ)
    (chunks : List (List (π × κ))) :
    traceMsgSum (runChunks f chunks)
      = (chunks.map (fun c => traceMsgSum (runChunk f c))).sum := by
  induction chunks with
  | nil => rfl
  | cons c rest ih =>
    show traceMsgSum (runChunk f c ++ runChunks f rest) = _
    simp only [traceMsgSum, List.map_append, List.sum_append, List.map_cons,
      List.sum_cons]
    simp only [traceMsgSum] at ih
    rw [ih]

/-- A chunk never reports more messages than it has jobs. -/
theorem traceMsgSum_runChunk_le {π κ μ : Type} (f : π → κ → WorkerTrace μ)
    (hb : ∀ p j, (f p j).msgs.length ≤ 1) (c : List (π × κ)) :
    traceMsgSum (runChunk f c) ≤ c.length := by
  induction c with
  | nil => simp [runChunk, traceMsgSum]
  | cons pj rest ih =>
    by_cases hu : (f pj.1 pj.2).uncaught = true
    · simp only [runChunk, if_pos hu, traceMsgSum_cons, traceMsgSum_nil,
        List.length_cons]
      have := hb pj.1 pj.2
      omega
    · simp only [runChunk, if_neg hu, traceMsgSum_cons, List.length_cons]
      have := hb pj.1 pj.2
      omega

/-- A chunk whose jobs all finish without escape and report one message
each reports exactly one message per job. -/
theorem traceMsgSum_runChunk_eq {π κ μ : Type} (f : π → κ → WorkerTrace μ)
    (c : List (π × κ))
    (h : ∀ pj ∈ c, (f pj.1 pj.2).uncaught = false ∧ (f pj.1 pj.2).msgs.length = 1) :
    traceMsgSum (runChunk f c) = c.length := by
  induction c with
  | nil => rfl
  | cons pj rest ih =>
    obtain ⟨hu, hl⟩ := h pj (List.mem_cons_self pj rest)
    have hcond : ¬ ((f pj.1 pj.2).uncaught = true) := by
      rw [hu]
      simp
    simp only [runChunk, if_neg hcond, traceMsgSum_cons, List.length_cons]
    rw [hl, ih (fun q hq => h q (List.mem_cons_of_mem pj hq))]
    omega

/-- A chunk containing a job that reports nothing (whether that job runs or
is skipped by an earlier escape) reports fewer messages than it has jobs. -/
theorem traceMsgSum_runChunk_lt_zero {π κ μ : Type} (f : π → κ → WorkerTrace μ)
    (hb : ∀ p j, (f p j).msgs.length ≤ 1) (c : List (π × κ))
    (h : ∃ pj ∈ c, (f pj.1 pj.2).msgs.length = 0) :
    traceMsgSum (runChunk f c) < c.length := by
  induction c with
  | nil => simp at h
  | cons pj rest ih =>
    obtain ⟨qk, hqk, hzero⟩ := h
    by_cases hu : (f pj.1 pj.2).uncaught = true
    · simp only [runChunk, if_pos hu, traceMsgSum_cons, traceMsgSum_nil,
        List.length_cons]
      rcases List.mem_cons.mp hqk with hq | hq
      · rw [hq] at hzero
        omega
      · have h1 : 0 < rest.length := List.length_pos.mpr (List.ne_nil_of_mem hq)
        have h2 := hb pj.1 pj.2
        omega
    · simp only [runChunk, if_neg hu, traceMsgSum_cons, List.length_cons]
      rcases List.mem_cons.mp hqk with hq | hq
      · rw [hq] at hzero
        have hle := traceMsgSum_runChunk_le f hb rest
        omega
      · have h1 := ih ⟨qk, hq, hzero⟩
        have h2 := hb pj.1 pj.2
        omega

/-- A chunk in which some job's escaping error is followed by at least one
more job reports fewer messages than it has jobs: the escape aborts the
rest of the chunk. -/
theorem traceMsgSum_runChunk_lt_mid {π κ μ : Type} (f : π → κ → WorkerTrace μ)
    (hb : ∀ p j, (f p j).msgs.length ≤ 1) (c1 : List (π × κ)) (pj qk : π × κ)
    (c2 : List (π × κ)) (hu : (f pj.1 pj.2).uncaught = true) :
    traceMsgSum (runChunk f (c1 ++ pj :: qk :: c2)) < (c1 ++ pj :: qk :: c2).length := by
  induction c1 with
  | nil =>
    simp only [List.nil_append, runChunk, if_pos hu, traceMsgSum_cons,
      traceMsgSum_nil, List.length_cons]
    have := hb pj.1 pj.2
    omega
  | cons rs c1t ih =>
    by_cases hu2 : (f rs.1 rs.2).uncaught = true
    · simp only [List.cons_append, runChunk, if_pos hu2, traceMsgSum_cons,
        traceMsgSum_nil, List.length_cons, List.length_append]
      have := hb rs.1 rs.2
      omega
    · simp only [List.cons_append, runChunk, if_neg hu2, traceMsgSum_cons,
        List.length_cons, List.append_eq]
      have h1 := hb rs.1 rs.2
      have h2 : traceMsgSum (runChunk f (c1t ++ pj :: qk :: c2))
          < (c1t ++ pj :: qk :: c2).length := ih
      omega

/-- Pointwise bounded lists have bounded sums. -/
theorem sumLePointwise {α : Type} (A B : α → ℕ) (l : List α)
    (h : ∀ x ∈ l, A x ≤ B x) :
    (l.map A).sum ≤ (l.map B).sum := by
  induction l with
  | nil => simp
  | cons x t ih =>
    simp only [List.map_cons, List.sum_cons]
    have h1 := h x (List.mem_cons_self x t)
    have h2 := ih (fun y hy => h y (List.mem_cons_of_mem x hy))
    omega

/-- A pointwise bound that is strict at one member gives a strict sum bound. -/
theorem sumLtPointwise {α : Type} (A B : α → ℕ) (l : List α)
    (h : ∀ x ∈ l, A x ≤ B x) (x0 : α) (hx : x0 ∈ l) (hlt : A x0 < B x0) :
    (l.map A).sum < (l.map B).sum := by
  induction l with
  | nil => simp at hx
  | cons x t ih =>
    simp only [List.map_cons, List.sum_cons]
    rcases List.mem_cons.mp hx with hx0 | hx0
    · have h2 := sumLePointwise A B t (fun y hy => h y (List.mem_cons_of_mem x hy))
      rw [hx0] at hlt
      omega
    · have h1 := h x (List.mem_cons_self x t)
      have h2 := ih (fun y hy => h y (List.mem_cons_of_mem x hy)) hx0
      omega

/-- Map respects pointwise equality on members. -/
theorem mapCongrMem {α β : Type} (f g : α → β) (l : List α)
    (h : ∀ a ∈ l, f a = g a) : l.map f = l.map g := by
  induction l with
  | nil => rfl
  | cons x t ih =>
    simp only [List.map_cons]
    rw [h x (List.mem_cons_self x t),
      ih (fun y hy => h y (List.mem_cons_of_mem x hy))]

/--
Claim C1 (counterexample): a predict job whose body fails after acquiring
its worker slot reports no result at all — not even a failure sentinel —
and never releases the slot, so a predict call with one Location whose
single job fails never completes: the claim that every failed job reports a
sentinel, releases its slot exactly once and lets the call complete is
false.
-/
theorem predictFailureSilent_C1_counterexample :
    (predictProcessRun 1 PredFailPoint.atBody ⟨[1, 1], [], []⟩).msgs = [] ∧
    (predictProcessRun 1 PredFailPoint.atBody ⟨[1, 1], [], []⟩).acquires = 1 ∧
    (predictProcessRun 1 PredFailPoint.atBody ⟨[1, 1], [], []⟩).releases = 0 ∧
    ¬ callCompletes 1 [predictProcessRun 1 PredFailPoint.atBody ⟨[1, 1], [], []⟩] := by
  refine ⟨rfl, rfl, rfl, ?_⟩
  decide

/--
Claim C1 (amended): the claimed guarantee holds only for fit jobs failing
after the worker slot is acquired.  In detail: a fit job whose body fails
after the slot is acquired is caught at the job boundary, reports the
failure sentinel for its Location, acquires and releases its slot exactly
once, and nothing escapes the worker; a fit call all of whose jobs either
succeed or fail only in this way completes.  A fit job failing before its
data is unpacked reports nothing (its handler raises `NameError` on the
unbound `indices`, the escape aborting the rest of its chunk before being
swallowed by the pool), so the fit call stalls; a fit job failing after
unpacking but before slot acquisition reports its sentinel yet touches no
slot, and its handler's escaping error likewise aborts the rest of its
chunk, so the fit call stalls whenever at least one more job follows it in
its chunk.  A predict job failure never raises across the worker boundary,
but reports no sentinel and releases no slot, so any predict call with a
failed job stalls forever.
-/
theorem jobFailureHandling_C1 (filterWidth : ℕ) (lam : ℚ) {m T : ℕ} :
    (∀ j : FitJobData m T, fitProcessRun filterWidth lam FitFailPoint.atBody j
        = ⟨[fitSentinel filterWidth j.indices], 1, 1, false⟩)
    ∧ (∀ j : FitJobData m T, fitProcessRun filterWidth lam FitFailPoint.atUnpack j
        = ⟨[], 0, 0, true⟩)
    ∧ (∀ j : FitJobData m T, fitProcessRun filterWidth lam FitFailPoint.atSharedRead j
        = ⟨[fitSentinel filterWidth j.indices], 0, 0, true⟩)
    ∧ (∀ (p : PredFailPoint) (j : PredJobData),
        (predictProcessRun filterWidth p j).uncaught = false)
    ∧ (∀ (p : PredFailPoint) (j : PredJobData), p ≠ PredFailPoint.ok →
        (predictProcessRun filterWidth p j).msgs = []
          ∧ (predictProcessRun filterWidth p j).releases = 0)
    ∧ (∀ chunks : List (List (FitFailPoint × FitJobData m T)),
        (∀ c ∈ chunks, ∀ pj ∈ c,
          pj.1 = FitFailPoint.ok ∨ pj.1 = FitFailPoint.atBody) →
        callCompletes (chunksJobCount chunks)
          (runChunks (fitProcessRun filterWidth lam) chunks))
    ∧ (∀ chunks : List (List (FitFailPoint × FitJobData m T)),
        (∃ c ∈ chunks, ∃ pj ∈ c, pj.1 = FitFailPoint.atUnpack) →
        ¬ callCompletes (chunksJobCount chunks)
          (runChunks (fitProcessRun filterWidth lam) chunks))
    ∧ (∀ chunks : List (List (FitFailPoint × FitJobData m T)),
        (∃ c ∈ chunks,
          ∃ (c1 : List (FitFailPoint × FitJobData m T))
            (pj qk : FitFailPoint × FitJobData m T)
            (c2 : List (FitFailPoint × FitJobData m T)),
          c = c1 ++ pj :: qk :: c2
            ∧ (fitProcessRun filterWidth lam pj.1 pj.2).uncaught = true) →
        ¬ callCompletes (chunksJobCount chunks)
          (runChunks (fitProcessRun filterWidth lam) chunks))
    ∧ (∀ chunks : List (List (PredFailPoint × PredJobData)),
        (∃ c ∈ chunks, ∃ pj ∈ c, pj.1 ≠ PredFailPoint.ok) →
        ¬ callCompletes (chunksJobCount chunks)
          (runChunks (predictProcessRun filterWidth) chunks)) := by
  have hbFit : ∀ (p : FitFailPoint) (j : FitJobData m T),
      (fitProcessRun filterWidth lam p j).msgs.length ≤ 1 := by
    intro p j
    cases p <;> simp [fitProcessRun]
  have hbPred : ∀ (p : PredFailPoint) (j : PredJobData),
      (predictProcessRun filterWidth p j).msgs.length ≤ 1 := by
    intro p j
    cases p <;> simp [predictProcessRun]
  refine ⟨fun j => rfl, fun j => rfl, fun j => rfl, ?_, ?_, ?_, ?_, ?_, ?_⟩
  · intro p j
    cases p <;> rfl
  · intro p j hp
    cases p with
    | ok => exact absurd rfl hp
    | atUnpack => exact ⟨rfl, rfl⟩
    | atBody => exact ⟨rfl, rfl⟩
  · intro chunks hgood
    show chunksJobCount chunks
      ≤ traceMsgSum (runChunks (fitProcessRun filterWidth lam) chunks)
    have heach : ∀ c ∈ chunks,
        traceMsgSum (runChunk (fitProcessRun filterWidth lam) c) = c.length := by
      intro c hc
      apply traceMsgSum_runChunk_eq
      intro pj hpj
      rcases hgood c hc pj hpj with h | h <;> rw [h] <;> exact ⟨rfl, rfl⟩
    have hmap : chunks.map List.length
        = chunks.map (fun c => traceMsgSum (runChunk (fitProcessRun filterWidth lam) c)) :=
      mapCongrMem _ _ chunks (fun c hc => (heach c hc).symm)
    have heq : chunksJobCount chunks
        = traceMsgSum (runChunks (fitProcessRun filterWidth lam) chunks) := by
      show (chunks.map List.length).sum = _
      rw [hmap, ← traceMsgSum_runChunks]
    exact le_of_eq heq
  · intro chunks hbad hcomp
    obtain ⟨c0, hc0, pj, hpj, hup⟩ := hbad
    have hlt : traceMsgSum (runChunk (fitProcessRun filterWidth lam) c0) < c0.length :=
      traceMsgSum_runChunk_lt_zero _ hbFit c0
        ⟨pj, hpj, by rw [hup]; rfl⟩
    have hle : ∀ c ∈ chunks,
        traceMsgSum (runChunk (fitProcessRun filterWidth lam) c) ≤ c.length :=
      fun c _ => traceMsgSum_runChunk_le _ hbFit c
    have htot := sumLtPointwise
      (fun c => traceMsgSum (runChunk (fitProcessRun filterWidth lam) c))
      List.length chunks hle c0 hc0 hlt
    have hcomp2 : chunksJobCount chunks
        ≤ traceMsgSum (runChunks (fitProcessRun filterWidth lam) chunks) := hcomp
    rw [traceMsgSum_runChunks] at hcomp2
    have hcount : chunksJobCount chunks = (chunks.map List.length).sum := rfl
    omega
  · intro chunks hbad hcomp
    obtain ⟨c0, hc0, c1, pj, qk, c2, hshape, hup⟩ := hbad
    have hlt : traceMsgSum (runChunk (fitProcessRun filterWidth lam) c0) < c0.length := by
      rw [hshape]
      exact traceMsgSum_runChunk_lt_mid _ hbFit c1 pj qk c2 hup
    have hle : ∀ c ∈ chunks,
        traceMsgSum (runChunk (fitProcessRun filterWidth lam) c) ≤ c.length :=
      fun c _ => traceMsgSum_runChunk_le _ hbFit c
    have htot := sumLtPointwise
      (fun c => traceMsgSum (runChunk (fitProcessRun filterWidth lam) c))
      List.length chunks hle c0 hc0 hlt
    have hcomp2 : chunksJobCount chunks
        ≤ traceMsgSum (runChunks (fitProcessRun filterWidth lam) chunks) := hcomp
    rw [traceMsgSum_runChunks] at hcomp2
    have hcount : chunksJobCount chunks = (chunks.map List.length).sum := rfl
    omega
  · intro chunks hbad hcomp
    obtain ⟨c0, hc0, pj, hpj, hne⟩ := hbad
    have hzero : (predictProcessRun filterWidth pj.1 pj.2).msgs.length = 0 := by
      cases hp : pj.1 with
      | ok => exact absurd hp hne
      | atUnpack => rfl
      | atBody => rfl
    have hlt : traceMsgSum (runChunk (predictProcessRun filterWidth) c0) < c0.length :=
      traceMsgSum_runChunk_lt_zero _ hbPred c0 ⟨pj, hpj, hzero⟩
    have hle : ∀ c ∈ chunks,
        traceMsgSum (runChunk (predictProcessRun filterWidth) c) ≤ c.length :=
      fun c _ => traceMsgSum_runChunk_le _ hbPred c
    have htot := sumLtPointwise
      (fun c => traceMsgSum (runChunk (predictProcessRun filterWidth) c))
      List.length chunks hle c0 hc0 hlt
    have hcomp2 : chunksJobCount chunks
        ≤ traceMsgSum (runChunks (predictProcessRun filterWidth) chunks) := hcomp
    rw [traceMsgSum_runChunks] at hcomp2
    have hcount : chunksJobCount chunks = (chunks.map List.length).sum := rfl
    omega

/--
Claim C1 (witness): a one-chunk fit call with one success and one
post-acquisition failure completes; a fit call whose single job fails at
unpack stalls; a fit call whose first chunk job fails before slot
acquisition (its escape skipping the second job of the chunk) stalls; and a
one-job predict call whose job fails stalls.
-/
theorem jobFailureHandling_C1_witness :
    callCompletes
      (chunksJobCount [[(FitFailPoint.ok, (⟨[1], constMat 1, constMat 2, [0]⟩
          : FitJobData 1 1)),
        (FitFailPoint.atBody, (⟨[2], constMat 1, constMat 4, [0]⟩ : FitJobData 1 1))]])
      (runChunks (fitProcessRun 1 (1 : ℚ))
        [[(FitFailPoint.ok, (⟨[1], constMat 1, constMat 2, [0]⟩ : FitJobData 1 1)),
          (FitFailPoint.atBody, (⟨[2], constMat 1, constMat 4, [0]⟩
            : FitJobData 1 1))]])
    ∧ ¬ callCompletes
      (chunksJobCount [[(FitFailPoint.atUnpack, (⟨[1], constMat 1, constMat 2, [0]⟩
          : FitJobData 1 1))]])
      (runChunks (fitProcessRun 1 (1 : ℚ))
        [[(FitFailPoint.atUnpack, (⟨[1], constMat 1, constMat 2, [0]⟩
            : FitJobData 1 1))]])
    ∧ ¬ callCompletes
      (chunksJobCount [[(FitFailPoint.atSharedRead, (⟨[1], constMat 1, constMat 2, [0]⟩
          : FitJobData 1 1)),
        (FitFailPoint.ok, (⟨[2], constMat 1, constMat 4, [0]⟩ : FitJobData 1 1))]])
      (runChunks (fitProcessRun 1 (1 : ℚ))
        [[(FitFailPoint.atSharedRead, (⟨[1], constMat 1, constMat 2, [0]⟩
            : FitJobData 1 1)),
          (FitFailPoint.ok, (⟨[2], constMat 1, constMat 4, [0]⟩ : FitJobData 1 1))]])
    ∧ ¬ callCompletes
      (chunksJobCount [[(PredFailPoint.atBody, (⟨[1, 1], [], []⟩ : PredJobData))]])
      (runChunks (predictProcessRun 1)
        [[(PredFailPoint.atBody, (⟨[1, 1], [], []⟩ : PredJobData))]]) := by
  refine ⟨?_, ?_, ?_, ?_⟩
  · exact (jobFailureHandling_C1 1 (1 : ℚ) (m := 1) (T := 1)).2.2.2.2.2.1 _
      (by decide)
  · exact (jobFailureHandling_C1 1 (1 : ℚ) (m := 1) (T := 1)).2.2.2.2.2.2.1 _
      ⟨_, List.mem_cons_self _ _, _, List.mem_cons_self _ _, rfl⟩
  · exact (jobFailureHandling_C1 1 (1 : ℚ) (m := 1) (T := 1)).2.2.2.2.2.2.2.1 _
      ⟨_, List.mem_cons_self _ _, [],
        (FitFailPoint.atSharedRead, ⟨[1], constMat 1, constMat 2, [0]⟩),
        (FitFailPoint.ok, ⟨[2], constMat 1, constMat 4, [0]⟩), [], rfl, rfl⟩
  · exact (jobFailureHandling_C1 1 (1 : ℚ) (m := 1) (T := 1)).2.2.2.2.2.2.2.2 _
      ⟨_, List.mem_cons_self _ _, _, List.mem_cons_self _ _, by decide⟩

/-- The reducer's state write: the stepped shared storage always has the
encoded reported state written at the Location's flat index. -/
theorem fitReduceStepVal_xs (averageOutputWeights : Bool) (inputShape : List ℕ)
    (nReservoir : ℕ) {m : ℕ} (sh : FitShared m) (msg : FitMsg m) (id : ℕ) :
    (fitReduceStepVal averageOutputWeights inputShape nReservoir sh msg id).xs
      = sh.xs.set id (encodeVec nReservoir msg.state) := by
  unfold fitReduceStepVal
  cases hW : msg.wout <;> cases averageOutputWeights <;> simp [hW]

/-- The reducer's shared-matrix update in averaging mode: a solved `WOut`
adds its `1/prod(inputShape)` multiple, a sentinel adds nothing. -/
theorem fitReduceStepVal_WOut_avg (inputShape : List ℕ) (nReservoir : ℕ) {m : ℕ}
    (sh : FitShared m) (msg : FitMsg m) (id : ℕ) :
    (fitReduceStepVal true inputShape nReservoir sh msg id).WOut
      = match msg.wout with
        | some W => sh.WOut + ((inputShape.prod : ℚ))⁻¹ • W
        | none => sh.WOut := by
  unfold fitReduceStepVal
  cases hW : msg.wout <;> simp [hW]

/-- The reducer's diagnostic: a sentinel result appends a warning, a solved
result does not. -/
theorem fitReduceStepVal_warnings (averageOutputWeights : Bool) (inputShape : List ℕ)
    (nReservoir : ℕ) {m : ℕ} (sh : FitShared m) (msg : FitMsg m) (id : ℕ) :
    (fitReduceStepVal averageOutputWeights inputShape nReservoir sh msg id).warnings
      = match msg.wout with
        | some _ => sh.warnings
        | none => sh.warnings ++ [msg.indices] := by
  unfold fitReduceStepVal
  cases hW : msg.wout <;> cases averageOutputWeights <;> simp [hW]

/--
Claim C5 (confirmed): for every result reduced during a fit call, including
failure sentinels, the persistent per-Location state array entry at the
Location's flat index is overwritten with the reported state (a sentinel's
`None` state being stored as NaN by numpy's broadcast of `None` into the
float array), and the reducer then continues with the remaining results —
the state write happens unconditionally, whether or not the job failed and
in both weight-storage modes.
-/
theorem stateWriteUnconditional_C5 (averageOutputWeights : Bool)
    (inputShape : List ℕ) (nReservoir : ℕ) {m : ℕ} (sh : FitShared m)
    (msg : FitMsg m) (id : ℕ)
    (hid : uniqueIDFromIndices inputShape msg.indices = some id)
    (hlt : id < sh.xs.length) :
    ∃ sh2, fitReduceStep averageOutputWeights inputShape nReservoir sh msg = some sh2
      ∧ sh2.xs[id]? = some (encodeVec nReservoir msg.state)
      ∧ ∀ rest : List (FitMsg m),
          fitReduceAll averageOutputWeights inputShape nReservoir sh (msg :: rest)
            = fitReduceAll averageOutputWeights inputShape nReservoir sh2 rest := by
  refine ⟨fitReduceStepVal averageOutputWeights inputShape nReservoir sh msg id,
    ?_, ?_, ?_⟩
  · unfold fitReduceStep
    rw [hid]
    rfl
  · rw [fitReduceStepVal_xs]
    exact listGetElemSetSelf sh.xs id _ hlt
  · intro rest
    have hbind : (some sh).bind
        (fun s => fitReduceStep averageOutputWeights inputShape nReservoir s msg)
        = some (fitReduceStepVal averageOutputWeights inputShape nReservoir sh msg id) := by
      show fitReduceStep averageOutputWeights inputShape nReservoir sh msg = _
      unfold fitReduceStep
      rw [hid]
      rfl
    simp only [fitReduceAll, List.foldl_cons, hbind]

/--
Claim C5 (witness): a failure sentinel for the single Location of a 1-cell
grid is reduced: the persistent array entry, previously holding 7, is
overwritten with the NaN encoding of the sentinel's `None` state, and
reduction continues.
-/
theorem stateWriteUnconditional_C5_witness :
    ∃ sh2, fitReduceStep true [1] 1
        (⟨0, [], [[RVal.num 7]], []⟩ : FitShared 1) ⟨[0], none, none⟩ = some sh2
      ∧ sh2.xs[0]? = some [RVal.nan]
      ∧ ∀ rest, fitReduceAll true [1] 1 (⟨0, [], [[RVal.num 7]], []⟩ : FitShared 1)
          (⟨[0], none, none⟩ :: rest) = fitReduceAll true [1] 1 sh2 rest := by
  have h := stateWriteUnconditional_C5 true [1] 1
    (⟨0, [], [[RVal.num 7]], []⟩ : FitShared 1) ⟨[0], none, none⟩ 0 rfl
    (by decide)
  simpa [encodeVec] using h

/--
The messages arriving on the `fitQueue` during a fit call in which no job
suffers an external failure: each job contributes the single message of its
worker execution (a solved result, or the sentinel if its ridge solve hit a
singular matrix).  Arrival order across Locations is arbitrary in the real
system; the spec requires the reduction to be order-independent, and this
canonical order is used for the statements below.
-/
def fitRunMsgs (filterWidth : ℕ) (lam : ℚ) {m T : ℕ}
    (jobs : List (FitJobData m T)) : List (FitMsg m) :=
  (jobs.map (fun j => fitProcessRun filterWidth lam FitFailPoint.ok j)).flatMap
    (fun t => t.msgs)

/-- Each no-external-failure job contributes exactly its one message. -/
theorem fitRunMsgs_eq (filterWidth : ℕ) (lam : ℚ) {m T : ℕ}
    (jobs : List (FitJobData m T)) :
    fitRunMsgs filterWidth lam jobs = jobs.map (fitMsgOk filterWidth lam) := by
  induction jobs with
  | nil => rfl
  | cons j t ih =>
    simp only [fitRunMsgs, List.map_cons, List.flatMap_cons] at ih ⊢
    rw [ih]
    rfl

/-- The worker's message always carries the unpadded Location indices. -/
theorem fitMsgOk_indices (filterWidth : ℕ) (lam : ℚ) {m T : ℕ} (j : FitJobData m T) :
    (fitMsgOk filterWidth lam j).indices = j.indices.map (fun c => c - filterWidth) := by
  unfold fitMsgOk
  cases h : lsqrSolve lam j.X j.Y <;> simp [h, fitSentinel]

/-- The worker's message carries exactly the ridge solve's outcome. -/
theorem fitMsgOk_wout (filterWidth : ℕ) (lam : ℚ) {m T : ℕ} (j : FitJobData m T) :
    (fitMsgOk filterWidth lam j).wout = lsqrSolve lam j.X j.Y := by
  unfold fitMsgOk
  cases h : lsqrSolve lam j.X j.Y <;> simp [h, fitSentinel]

/-- With every ridge solve succeeding, the non-sentinel readouts are exactly
the per-job ridge solutions. -/
theorem filterMapWoutAllSome (filterWidth : ℕ) (lam : ℚ) {m T : ℕ}
    (jobs : List (FitJobData m T))
    (hsolve : ∀ j ∈ jobs, (lsqrSolve lam j.X j.Y).isSome) :
    (jobs.map (fitMsgOk filterWidth lam)).filterMap (fun msg => msg.wout)
      = jobs.map (fun j => (lsqrSolve lam j.X j.Y).getD 0) := by
  induction jobs with
  | nil => rfl
  | cons j t ih =>
    obtain ⟨W, hW⟩ := Option.isSome_iff_exists.mp
      (hsolve j (List.mem_cons_self j t))
    simp only [List.map_cons, List.filterMap_cons, fitMsgOk_wout, hW,
      ih (fun q hq => hsolve q (List.mem_cons_of_mem j hq)), Option.getD_some]

/-- Summing the scalar multiples of a list of readout rows. -/
theorem sumMapSmul {m : ℕ} (r : ℚ) (l : List (Matrix (Fin 1) (Fin m) ℚ)) :
    (l.map (fun W => r • W)).sum = r • l.sum := by
  induction l with
  | nil => simp
  | cons a t ih => simp [ih, smul_add]

/--
Running the averaging fit reducer over a message list whose flat indices all
resolve: the reduction completes, and the shared matrix has gained the sum
of `WOut / prod(inputShape)` over all non-sentinel messages.
-/
theorem fitReduceAll_avg_sum (inputShape : List ℕ) (nReservoir : ℕ) {m : ℕ}
    (msgs : List (FitMsg m)) :
    ∀ sh : FitShared m,
      (∀ msg ∈ msgs, (uniqueIDFromIndices inputShape msg.indices).isSome) →
      ∃ shf, fitReduceAll true inputShape nReservoir sh msgs = some shf ∧
        shf.WOut = sh.WOut
          + ((msgs.filterMap (fun msg => msg.wout)).map
              (fun W => ((inputShape.prod : ℚ))⁻¹ • W)).sum := by
  induction msgs with
  | nil =>
    intro sh _
    exact ⟨sh, rfl, by simp⟩
  | cons msg rest ih =>
    intro sh hidx
    obtain ⟨id, hid⟩ := Option.isSome_iff_exists.mp
      (hidx msg (List.mem_cons_self msg rest))
    have hbind : (some sh).bind
        (fun s => fitReduceStep true inputShape nReservoir s msg)
        = some (fitReduceStepVal true inputShape nReservoir sh msg id) := by
      show fitReduceStep true inputShape nReservoir sh msg = _
      unfold fitReduceStep
      rw [hid]
      rfl
    obtain ⟨shf, hrun, hW⟩ := ih (fitReduceStepVal true inputShape nReservoir sh msg id)
      (fun q hq => hidx q (List.mem_cons_of_mem msg hq))
    refine ⟨shf, ?_, ?_⟩
    · simp only [fitReduceAll, List.foldl_cons, hbind]
      exact hrun
    · rw [hW, fitReduceStepVal_WOut_avg]
      cases hw : msg.wout with
      | none => simp [List.filterMap_cons, hw]
      | some W => simp [List.filterMap_cons, hw, add_assoc]

/--
One complete averaging fit call, starting from an arbitrary shared matrix:
the shared matrix gains the mean contribution `Σ WOut_i / prod(inputShape)`
of the per-Location ridge solutions.
-/
theorem fitRunAvgSum (inputShape : List ℕ) (nReservoir filterWidth : ℕ) (lam : ℚ)
    {m T : ℕ} (jobs : List (FitJobData m T)) (sh : FitShared m)
    (hsolve : ∀ j ∈ jobs, (lsqrSolve lam j.X j.Y).isSome)
    (hidx : ∀ j ∈ jobs, (uniqueIDFromIndices inputShape
        (j.indices.map (fun c => c - filterWidth))).isSome) :
    ∃ shf, fitReduceAll true inputShape nReservoir sh
        (fitRunMsgs filterWidth lam jobs) = some shf ∧
      shf.WOut = sh.WOut + ((inputShape.prod : ℚ))⁻¹
        • (jobs.map (fun j => (lsqrSolve lam j.X j.Y).getD 0)).sum := by
  rw [fitRunMsgs_eq]
  obtain ⟨shf, hrun, hW⟩ := fitReduceAll_avg_sum inputShape nReservoir
    (jobs.map (fitMsgOk filterWidth lam)) sh
    (by
      intro msg hmsg
      obtain ⟨j, hj, rfl⟩ := List.mem_map.mp hmsg
      rw [fitMsgOk_indices]
      exact hidx j hj)
  refine ⟨shf, hrun, ?_⟩
  rw [hW, filterMapWoutAllSome filterWidth lam jobs hsolve, sumMapSmul]

/--
Claim C2 (counterexample): "after every fit call the shared matrix equals
the arithmetic mean of the per-Location ridge solutions" fails for a second
fit call, because `fit` never clears the shared matrix.  Concretely, on a
one-Location grid with `λ = 1`: a first fit with `X = [[1]]`, `Y = [[2]]`
leaves the shared matrix at `[[1]]`; a second fit with `X = [[1]]`,
`Y = [[4]]` leaves it at `[[3]]`, while the mean of that call's per-Location
ridge solutions is `[[2]]`.
-/
theorem avgWOutSecondFit_C2_counterexample :
    ((fitReduceAll true [1] 1 (initialFitSharedAvg 1 [[RVal.nan]])
        (fitRunMsgs 1 1 [(⟨[1], constMat 1, constMat 2, [0]⟩ : FitJobData 1 1)])).bind
      (fun sh1 => fitReduceAll true [1] 1 sh1
        (fitRunMsgs 1 1 [(⟨[1], constMat 1, constMat 4, [0]⟩ : FitJobData 1 1)]))).map
      (fun sh => sh.WOut) = some (constMat 3)
    ∧ ((([(⟨[1], constMat 1, constMat 4, [0]⟩ : FitJobData 1 1)].length : ℚ))⁻¹
        • (([(⟨[1], constMat 1, constMat 4, [0]⟩ : FitJobData 1 1)].map
            (fun j => (lsqrSolve 1 j.X j.Y).getD 0)).sum) = constMat 2)
    ∧ constMat 3 ≠ constMat 2 := by
  have hs1 : lsqrSolve (1 : ℚ) (constMat 1) (constMat 2) = some (constMat 1) := by
    rw [lsqr_one 1 1 2 (by norm_num)]
    congr 1
    norm_num
  have hs2 : lsqrSolve (1 : ℚ) (constMat 1) (constMat 4) = some (constMat 2) := by
    rw [lsqr_one 1 1 4 (by norm_num)]
    congr 1
    norm_num
  obtain ⟨sh1, hrun1, hW1⟩ := fitRunAvgSum [1] 1 1 1
    [(⟨[1], constMat 1, constMat 2, [0]⟩ : FitJobData 1 1)]
    (initialFitSharedAvg 1 [[RVal.nan]])
    (by intro j hj; fin_cases hj; simp [hs1])
    (by intro j hj; fin_cases hj; rfl)
  obtain ⟨sh2, hrun2, hW2⟩ := fitRunAvgSum [1] 1 1 1
    [(⟨[1], constMat 1, constMat 4, [0]⟩ : FitJobData 1 1)] sh1
    (by intro j hj; fin_cases hj; simp [hs2])
    (by intro j hj; fin_cases hj; rfl)
  refine ⟨?_, ?_, constMatNe 3 2 (by norm_num)⟩
  · rw [hrun1]
    simp only [Option.some_bind]
    rw [hrun2]
    simp only [Option.map_some']
    congr 1
    rw [hW2, hW1]
    simp only [List.map_cons, List.map_nil, hs1, hs2, Option.getD_some,
      List.sum_cons, List.sum_nil, initialFitSharedAvg]
    rw [add_zero, add_zero]
    show (0 : Matrix (Fin 1) (Fin 1) ℚ) + _ + _ = _
    rw [zero_add]
    norm_num
    rw [constMatAdd]
    norm_num
  · simp only [List.map_cons, List.map_nil, hs2, Option.getD_some,
      List.sum_cons, List.sum_nil, List.length_cons, List.length_nil]
    rw [add_zero]
    norm_num

/--
Claim C2 (amended): for the first fit call after construction (the shared
matrix still holding its construction-time zero initialization) with
`averageOutputWeights = True` and solver `lsqr`, in which every Location's
ridge solve succeeds and every flat index resolves, the shared readout
matrix after the call equals the arithmetic mean over all Locations of the
per-Location ridge solutions `Y·Xᵀ·inv(X·Xᵗ + λ·I)` computed independently;
each successful per-Location `WOut` is accumulated as
`WOut / prod(inputShape)`, and a Location whose `WOut` is the failure
sentinel contributes nothing to the shared matrix while a warning
diagnostic is emitted.  (A later fit call starts from the accumulated
matrix instead of zero, so the claim's "every fit call" fails.)
-/
theorem avgWOutMean_C2 (inputShape : List ℕ) (nReservoir filterWidth : ℕ)
    (lam : ℚ) {m T : ℕ} (jobs : List (FitJobData m T)) (xsJunk : List (List RVal))
    (hsolve : ∀ j ∈ jobs, (lsqrSolve lam j.X j.Y).isSome)
    (hidx : ∀ j ∈ jobs, (uniqueIDFromIndices inputShape
        (j.indices.map (fun c => c - filterWidth))).isSome)
    (hN : jobs.length = inputShape.prod) :
    (∃ shf, fitReduceAll true inputShape nReservoir (initialFitSharedAvg m xsJunk)
        (fitRunMsgs filterWidth lam jobs) = some shf
      ∧ shf.WOut = ((jobs.length : ℚ))⁻¹
          • (jobs.map (fun j => (lsqrSolve lam j.X j.Y).getD 0)).sum)
    ∧ (∀ (sh : FitShared m) (msg : FitMsg m) (id : ℕ), msg.wout = none →
        uniqueIDFromIndices inputShape msg.indices = some id →
        ∃ sh2, fitReduceStep true inputShape nReservoir sh msg = some sh2
          ∧ sh2.WOut = sh.WOut
          ∧ sh2.warnings = sh.warnings ++ [msg.indices]) := by
  constructor
  · obtain ⟨shf, hrun, hW⟩ := fitRunAvgSum inputShape nReservoir filterWidth lam
      jobs (initialFitSharedAvg m xsJunk) hsolve hidx
    refine ⟨shf, hrun, ?_⟩
    rw [hW, hN]
    show (0 : Matrix (Fin 1) (Fin m) ℚ) + _ = _
    rw [zero_add]
  · intro sh msg id hw hid
    refine ⟨fitReduceStepVal true inputShape nReservoir sh msg id, ?_, ?_, ?_⟩
    · unfold fitReduceStep
      rw [hid]
      rfl
    · rw [fitReduceStepVal_WOut_avg, hw]
    · rw [fitReduceStepVal_warnings, hw]

/--
Claim C2 (witness): a first fit call on a two-Location grid with `λ = 1`,
per-Location data `(X, Y) = ([[1]], [[2]])` and `([[1]], [[4]])`: the ridge
solutions are `[[1]]` and `[[2]]`, and the shared matrix after the call is
their arithmetic mean `[[3/2]]`.
-/
theorem avgWOutMean_C2_witness :
    ∃ shf, fitReduceAll true [2] 1 (initialFitSharedAvg 1 [[RVal.nan], [RVal.nan]])
        (fitRunMsgs 1 1 [(⟨[1], constMat 1, constMat 2, [0]⟩ : FitJobData 1 1),
          (⟨[2], constMat 1, constMat 4, [0]⟩ : FitJobData 1 1)]) = some shf
      ∧ shf.WOut = constMat (3 / 2) := by
  have hs1 : lsqrSolve (1 : ℚ) (constMat 1) (constMat 2) = some (constMat 1) := by
    rw [lsqr_one 1 1 2 (by norm_num)]
    congr 1
    norm_num
  have hs2 : lsqrSolve (1 : ℚ) (constMat 1) (constMat 4) = some (constMat 2) := by
    rw [lsqr_one 1 1 4 (by norm_num)]
    congr 1
    norm_num
  obtain ⟨⟨shf, hrun, hW⟩, _⟩ := avgWOutMean_C2 [2] 1 1 1
    [(⟨[1], constMat 1, constMat 2, [0]⟩ : FitJobData 1 1),
      (⟨[2], constMat 1, constMat 4, [0]⟩ : FitJobData 1 1)]
    [[RVal.nan], [RVal.nan]]
    (by intro j hj; fin_cases hj <;> simp [hs1, hs2])
    (by intro j hj; fin_cases hj <;> rfl)
    (by rfl)
  refine ⟨shf, hrun, ?_⟩
  rw [hW]
  simp only [List.map_cons, List.map_nil, hs1, hs2, Option.getD_some,
    List.sum_cons, List.sum_nil, List.length_cons, List.length_nil]
  rw [add_zero, constMatAdd]
  rw [constMatSmul]
  norm_num

/--
Claim C10 (confirmed): with `averageOutputWeights = True` the shared readout
matrix is zeroed only once, at construction (`B.zeros`, line 151), and each
fit call accumulates into it with `+=` without clearing it first; therefore
after a second fit call (all solves succeeding, all indices resolving, one
job per Location in each call) the shared matrix equals the sum of the two
calls' per-Location averages, not the average computed from the most recent
fit alone.
-/
theorem repeatedFitAccumulates_C10 (inputShape : List ℕ)
    (nReservoir filterWidth : ℕ) (lam : ℚ) {m T : ℕ}
    (jobs1 jobs2 : List (FitJobData m T)) (xsJunk : List (List RVal))
    (hsolve1 : ∀ j ∈ jobs1, (lsqrSolve lam j.X j.Y).isSome)
    (hsolve2 : ∀ j ∈ jobs2, (lsqrSolve lam j.X j.Y).isSome)
    (hidx1 : ∀ j ∈ jobs1, (uniqueIDFromIndices inputShape
        (j.indices.map (fun c => c - filterWidth))).isSome)
    (hidx2 : ∀ j ∈ jobs2, (uniqueIDFromIndices inputShape
        (j.indices.map (fun c => c - filterWidth))).isSome)
    (hN1 : jobs1.length = inputShape.prod) (hN2 : jobs2.length = inputShape.prod) :
    ∃ sh1 sh2,
      fitReduceAll true inputShape nReservoir (initialFitSharedAvg m xsJunk)
        (fitRunMsgs filterWidth lam jobs1) = some sh1
      ∧ fitReduceAll true inputShape nReservoir sh1
          (fitRunMsgs filterWidth lam jobs2) = some sh2
      ∧ sh2.WOut = ((jobs1.length : ℚ))⁻¹
            • (jobs1.map (fun j => (lsqrSolve lam j.X j.Y).getD 0)).sum
          + ((jobs2.length : ℚ))⁻¹
            • (jobs2.map (fun j => (lsqrSolve lam j.X j.Y).getD 0)).sum := by
  obtain ⟨sh1, hrun1, hW1⟩ := fitRunAvgSum inputShape nReservoir filterWidth lam
    jobs1 (initialFitSharedAvg m xsJunk) hsolve1 hidx1
  obtain ⟨sh2, hrun2, hW2⟩ := fitRunAvgSum inputShape nReservoir filterWidth lam
    jobs2 sh1 hsolve2 hidx2
  refine ⟨sh1, sh2, hrun1, hrun2, ?_⟩
  rw [hW2, hW1, hN1, hN2]
  show (0 : Matrix (Fin 1) (Fin m) ℚ) + _ + _ = _
  rw [zero_add]

/--
Claim C10 (witness): on a one-Location grid with `λ = 1`, a first fit with
ridge solution `[[1]]` followed by a second fit with ridge solution `[[2]]`
leaves the shared matrix at `[[1]] + [[2]] = [[3]]`, which differs from the
most recent call's average `[[2]]`.
-/
theorem repeatedFitAccumulates_C10_witness :
    ∃ sh1 sh2,
      fitReduceAll true [1] 1 (initialFitSharedAvg 1 [[RVal.nan]])
        (fitRunMsgs 1 1 [(⟨[1], constMat 1, constMat 2, [0]⟩ : FitJobData 1 1)])
        = some sh1
      ∧ fitReduceAll true [1] 1 sh1
          (fitRunMsgs 1 1 [(⟨[1], constMat 1, constMat 4, [0]⟩ : FitJobData 1 1)])
        = some sh2
      ∧ sh2.WOut = constMat 3 ∧ sh2.WOut ≠ constMat 2 := by
  have hs1 : lsqrSolve (1 : ℚ) (constMat 1) (constMat 2) = some (constMat 1) := by
    rw [lsqr_one 1 1 2 (by norm_num)]
    congr 1
    norm_num
  have hs2 : lsqrSolve (1 : ℚ) (constMat 1) (constMat 4) = some (constMat 2) := by
    rw [lsqr_one 1 1 4 (by norm_num)]
    congr 1
    norm_num
  obtain ⟨sh1, sh2, hrun1, hrun2, hW⟩ := repeatedFitAccumulates_C10 [1] 1 1 1
    [(⟨[1], constMat 1, constMat 2, [0]⟩ : FitJobData 1 1)]
    [(⟨[1], constMat 1, constMat 4, [0]⟩ : FitJobData 1 1)]
    [[RVal.nan]]
    (by intro j hj; fin_cases hj; simp [hs1])
    (by intro j hj; fin_cases hj; simp [hs2])
    (by intro j hj; fin_cases hj; rfl)
    (by intro j hj; fin_cases hj; rfl)
    (by rfl) (by rfl)
  have hval : sh2.WOut = constMat 3 := by
    rw [hW]
    simp only [List.map_cons, List.map_nil, hs1, hs2, Option.getD_some,
      List.sum_cons, List.sum_nil, List.length_cons, List.length_nil]
    rw [add_zero, add_zero]
    norm_num
    rw [constMatAdd]
    norm_num
  exact ⟨sh1, sh2, hrun1, hrun2, hval,
    hval ▸ constMatNe 3 2 (by norm_num)⟩

/-- Python slice-with-stride `[0 : n : stride]`: the indices below `n`
divisible by the stride. -/
def stridedRange (n stride : ℕ) : List ℕ :=
  (List.range n).filter (fun i => i % stride = 0)

/--
The 2-D patch slice of the iterators (SpatioTemporalESN.py lines 54-56 and
95-97): from a padded spatial frame, the window rows
`y - filterWidth .. y + filterWidth` and columns
`x - filterWidth .. x + filterWidth`, each subsampled by `stride`, flattened
row-major.
-/
def extractPatch2D (frame : ℕ → ℕ → ℚ) (y x filterWidth stride : ℕ) : List ℚ :=
  (stridedRange (2 * filterWidth + 1) stride).flatMap
    (fun dy => (stridedRange (2 * filterWidth + 1) stride).map
      (fun dx => frame (y - filterWidth + dy) (x - filterWidth + dx)))

/-- The patch replicated along the time axis (`inData` has one flattened
patch row per time step). -/
def patchSeq (arr : ℕ → ℕ → ℕ → ℚ) (numT y x filterWidth stride : ℕ) :
    List (List ℚ) :=
  (List.range numT).map (fun t => extractPatch2D (arr t) y x filterWidth stride)

/--
`FittingArrayIterator.__next__` (SpatioTemporalESN.py lines 86-108): unpacks
exactly two coordinates with `y, x = indices` (raising `ValueError` for any
other length — the iterator's own `except` catches this and returns the
error value `0`, modelled as `none`), slices the input patch and the target
sequence at the unpadded location, and reads the Location's persistent
state `self.stesn._xs[uniqueID]` (an out-of-range flat index raises, also
caught into the error value).  The padded input array `arr` is indexed
`time × channel(series) × space`; the series axis is fixed here since the
patch slice is identical across it.
-/
def fittingIterNext (inputShape : List ℕ) (filterWidth stride numT : ℕ)
    (arr : ℕ → ℕ → ℕ → ℚ) (outArr : ℕ → ℕ → ℕ → ℚ)
    (xs : List (List RVal)) (indices : List ℕ) :
    Option (List (List ℚ) × List ℚ × List ℕ × List RVal) :=
  match indices with
  | [y, x] =>
    match uniqueIDFromIndices inputShape [y - filterWidth, x - filterWidth] with
    | none => none
    | some id =>
      match xs[id]? with
      | none => none
      | some st =>
        some (patchSeq arr numT y x filterWidth stride,
          (List.range numT).map (fun t => outArr t (y - filterWidth) (x - filterWidth)),
          indices, st)
  | _ => none

/--
`PredictionArrayIterator.__next__` (SpatioTemporalESN.py lines 45-65): the
same two-coordinate unpack, patch slice and persistent-state read, without
the target sequence.
-/
def predictionIterNext (inputShape : List ℕ) (filterWidth stride numT : ℕ)
    (arr : ℕ → ℕ → ℕ → ℚ) (xs : List (List RVal)) (indices : List ℕ) :
    Option (List (List ℚ) × List ℕ × List RVal) :=
  match indices with
  | [y, x] =>
    match uniqueIDFromIndices inputShape [y - filterWidth, x - filterWidth] with
    | none => none
    | some id =>
      (xs[id]?).map (fun st => (patchSeq arr numT y x filterWidth stride, indices, st))
  | _ => none

/--
Claim C9 (confirmed): both iterators unpack exactly two spatial coordinates
(`y, x = indices`), so for every configuration whose number of spatial
dimensions is not exactly 2, every job's patch extraction fails (the
iterator returns its error value); and for a two-dimensional grid, every
in-range job's patch extraction succeeds for both fit and predict.
-/
theorem twoDimensionalOnly_C9 (filterWidth stride numT : ℕ)
    (arr outArr : ℕ → ℕ → ℕ → ℚ) (xs : List (List RVal)) :
    (∀ (inputShape indices : List ℕ), indices.length = inputShape.length →
      inputShape.length ≠ 2 →
      fittingIterNext inputShape filterWidth stride numT arr outArr xs indices = none
        ∧ predictionIterNext inputShape filterWidth stride numT arr xs indices = none)
    ∧ (∀ s0 s1 y x : ℕ, filterWidth ≤ y → y < s0 + filterWidth →
        filterWidth ≤ x → x < s1 + filterWidth → 0 < s1 → xs.length = s0 * s1 →
        (fittingIterNext [s0, s1] filterWidth stride numT arr outArr xs [y, x]).isSome
          ∧ (predictionIterNext [s0, s1] filterWidth stride numT arr xs
              [y, x]).isSome) := by
  constructor
  · intro inputShape indices hlen hne
    match indices with
    | [] => exact ⟨rfl, rfl⟩
    | [y] => exact ⟨rfl, rfl⟩
    | [y, x] =>
      rw [List.length_cons, List.length_cons, List.length_nil] at hlen
      exact absurd hlen.symm hne
    | y :: x :: z :: rest => exact ⟨rfl, rfl⟩
  · intro s0 s1 y x hwy hys hwx hxs hs1 hlen
    have hid : uniqueIDFromIndices [s0, s1] [y - filterWidth, x - filterWidth]
        = some ((x - filterWidth) + s1 * (y - filterWidth)) :=
      uniqueID_two s0 s1 (y - filterWidth) (x - filterWidth)
    have hlt : (x - filterWidth) + s1 * (y - filterWidth) < s0 * s1 :=
      uniqueID_two_lt s0 s1 (y - filterWidth) (x - filterWidth)
        (by omega) (by omega)
    obtain ⟨st, hst⟩ := Option.isSome_iff_exists.mp
      (listGetElemIsSome xs _ (by rw [hlen]; exact hlt))
    constructor
    · simp only [fittingIterNext, hid, hst]
      rfl
    · simp only [predictionIterNext, hid, hst]
      rfl

/--
Claim C9 (witness): on a 1×1 grid with filter width 1, the job at padded
coordinates `[1, 1]` extracts successfully for both fit and predict, while
on a one-dimensional grid `[3]` the job `[1]` fails for both.
-/
theorem twoDimensionalOnly_C9_witness :
    (fittingIterNext [1, 1] 1 1 1 (fun _ _ _ => 0) (fun _ _ _ => 0)
        [[RVal.num 0]] [1, 1]).isSome
    ∧ (predictionIterNext [1, 1] 1 1 1 (fun _ _ _ => 0)
        [[RVal.num 0]] [1, 1]).isSome
    ∧ fittingIterNext [3] 1 1 1 (fun _ _ _ => 0) (fun _ _ _ => 0)
        [[RVal.num 0]] [1] = none := by
  have h := twoDimensionalOnly_C9 1 1 1 (fun _ _ _ => 0) (fun _ _ _ => 0)
    [[RVal.num 0]]
  obtain ⟨h2, h1⟩ := (h.2 1 1 1 1 (by decide) (by decide) (by decide) (by decide)
    (by decide) (by decide))
  exact ⟨h2, h1,
    (h.1 [3] [1] (by decide) (by decide)).1⟩
